import Mathlib

/-!
# Verification of the LongshrtMT pairs-monitoring signal engine

Shallow embedding of `services/multi_monitor.py`,
`services/pair_calibration.py` and the correlation sanitization line of
`services/build_pairs_from_universe.py`.

Modelling conventions:
* Python floats are embedded as exact rationals (`ℚ`).  The two
  transcendental library calls the code makes — `math.log` (in the spread
  and in calibration) and `math.sqrt` (in the rolling standard deviation)
  — are threaded through explicitly as function parameters `lg sq : ℚ → ℚ`,
  so every definition stays executable; theorems that depend on `sqrt`
  really behaving like a square root take that as a local hypothesis on
  the value at which it is applied.
* Python `None` becomes `Option`, exceptions become explicit sum types
  (`Except` / an error constructor in the input), and the formatted
  diagnostic strings of the source are represented by small inductive
  payloads or fixed status strings (the numeric pretty-printing inside the
  messages is not modelled).
* Wall-clock reads (`time.time()`, `now_ts()`) are passed in as inputs;
  the timestamp string stored in `Position.entry_ts` is omitted because it
  is write-only in the source.
-/

namespace LongshrtMT

/-- `EPS_STD = 1e-9` from `multi_monitor.py`. -/
def EPS_STD : ℚ := 1 / 10 ^ 9

/-! ## Rolling Z-Score (`RollingZScore`, multi_monitor.py lines 149-171) -/

/-- State of `RollingZScore`: a bounded deque of spread values plus the
last computed mean / standard deviation (the source stores
`std = math.sqrt(var)`; here it is `sq var` for the supplied `sq`). -/
structure RollingZScore where
  window : ℕ
  warmup : ℕ
  values : List ℚ
  last_mean : Option ℚ
  last_std : Option ℚ
  deriving Repr, DecidableEq

/-- `RollingZScore.__init__`. -/
def RollingZScore.init (window warmup : ℕ) : RollingZScore :=
  ⟨window, warmup, [], none, none⟩

/-- `deque(maxlen=w).append x`: append on the right, evicting from the
left whatever exceeds the bound `w`. -/
def pushWindow (w : ℕ) (vs : List ℚ) (x : ℚ) : List ℚ :=
  let vs' := vs ++ [x]
  if w < vs'.length then vs'.drop (vs'.length - w) else vs'

/-- Population mean `sum(values)/len(values)` (ℚ division is total;
the source only evaluates this on a nonempty window). -/
def popMean (vs : List ℚ) : ℚ := vs.sum / vs.length

/-- Population variance `sum((v-mean)**2)/len(values)`. -/
def popVar (vs : List ℚ) : ℚ :=
  (vs.map (fun v => (v - popMean vs) ^ 2)).sum / vs.length

/-- `RollingZScore.update` (lines 157-171).  `sq` stands for `math.sqrt`;
it is only consulted when `var > 0`, exactly as in the source. -/
def RollingZScore.update (sq : ℚ → ℚ) (s : RollingZScore) (x : ℚ) :
    RollingZScore × Option ℚ :=
  let vs := pushWindow s.window s.values x
  if vs.length < min s.warmup s.window then
    ({ s with values := vs, last_mean := none, last_std := none }, none)
  else
    let mean := popMean vs
    let var := popVar vs
    let std := if 0 < var then sq var else 0
    let s' := { s with values := vs, last_mean := some mean, last_std := some std }
    if std < EPS_STD then (s', none) else (s', some ((x - mean) / std))

/-- Feed a whole list of inputs, keeping the final state and the output
of the last `update` call (`none` when the list is empty). -/
def RollingZScore.feedAll (sq : ℚ → ℚ) (s : RollingZScore) (xs : List ℚ) :
    RollingZScore × Option ℚ :=
  xs.foldl (fun acc x => RollingZScore.update sq acc.1 x) (s, none)

/-! ## Signal engine (`SignalEngine`, multi_monitor.py lines 177-218) -/

inductive Side where
  | longSpread
  | shortSpread
  deriving Repr, DecidableEq

/-- `Position` (the `entry_ts` wall-clock string is write-only in the
source and omitted here). -/
structure Position where
  side : Side
  entry_z : ℚ
  entry_spread : ℚ
  deriving Repr, DecidableEq

/-- The four statuses returned by `SignalEngine.on_tick`. -/
inductive Status where
  | HOLD
  | ENTER
  | IN_POSITION
  | EXIT
  deriving Repr, DecidableEq

structure SignalEngine where
  enter_z : ℚ
  exit_band : ℚ
  pos : Option Position
  deriving Repr, DecidableEq

/-- `SignalEngine.on_tick` (lines 191-218): returns the new engine state,
the status, the side (`none` models the empty string) and the realized
spread P&L (`none` models the empty string, `some` the formatted value). -/
def SignalEngine.on_tick (e : SignalEngine) (z spread : ℚ) :
    SignalEngine × Status × Option Side × Option ℚ :=
  match e.pos with
  | none =>
    if e.enter_z ≤ z then
      ({ e with pos := some ⟨.shortSpread, z, spread⟩ }, .ENTER, some .shortSpread, none)
    else if z ≤ -e.enter_z then
      ({ e with pos := some ⟨.longSpread, z, spread⟩ }, .ENTER, some .longSpread, none)
    else
      (e, .HOLD, none, none)
  | some p =>
    if |z| ≤ e.exit_band then
      let pnl := match p.side with
        | .longSpread => spread - p.entry_spread
        | .shortSpread => p.entry_spread - spread
      ({ e with pos := none }, .EXIT, some p.side, some pnl)
    else
      (e, .IN_POSITION, some p.side, none)

/-! ## Liveness classification (`get_tick_state`, multi_monitor.py lines 82-119)

The process-wide dictionaries `_LAST_TICK_MSC` / `_LAST_SEEN_LOCAL` become an
explicit `TickCache` value threaded through the call; `time.time()` becomes
the `now` argument. -/

/-- The fields of an MT5 tick the classifier reads. -/
structure Tick where
  last : ℚ
  bid : ℚ
  ask : ℚ
  time_msc : ℤ
  deriving Repr, DecidableEq

inductive TickStatus where
  | OK
  | STALE
  | NO_TICK
  deriving Repr, DecidableEq

/-- The global caches `_LAST_TICK_MSC` and `_LAST_SEEN_LOCAL`. -/
structure TickCache where
  lastMsc : String → Option ℤ
  lastSeen : String → Option ℚ

def TickCache.empty : TickCache := ⟨fun _ => none, fun _ => none⟩

/-- Price selection of lines 94-103: prefer a positive `last`, then the
bid/ask midpoint, then Python's truthiness chain `bid or ask or None`. -/
def tickPrice (t : Tick) : Option ℚ :=
  if 0 < t.last then some t.last
  else if 0 < t.bid ∧ 0 < t.ask then some ((t.bid + t.ask) / 2)
  else if t.bid ≠ 0 then some t.bid
  else if t.ask ≠ 0 then some t.ask
  else none

/-- `get_tick_state` (lines 82-119): returns the updated caches together
with `(price, age, same_tick, status)`. -/
def get_tick_state (c : TickCache) (symbol : String) (tick : Option Tick)
    (now : ℚ) (stale_seconds : ℚ) :
    TickCache × (Option ℚ × Option ℚ × Bool × TickStatus) :=
  match tick with
  | none => (c, (none, none, false, .NO_TICK))
  | some t =>
    let price := tickPrice t
    let msc := t.time_msc
    let prev := c.lastMsc symbol
    let same_tick := decide (prev = some msc) && decide (0 < msc)
    let c' := if prev = none ∨ prev ≠ some msc then
        { lastMsc := fun s => if s = symbol then some msc else c.lastMsc s,
          lastSeen := fun s => if s = symbol then some now else c.lastSeen s }
      else c
    let last_seen := (c'.lastSeen symbol).getD now
    let age := now - last_seen
    let status : TickStatus := if stale_seconds < age then .STALE else .OK
    (c', (price, some age, same_tick, status))

/-! ## Entry confirmation gate and pair runtime
(`PairRuntime`, multi_monitor.py lines 256-503) -/

/-- `EntryConfirmMode` (lines 76-79). -/
inductive EntryConfirmMode where
  | NONE
  | CONSECUTIVE
  | INCREASING
  deriving Repr, DecidableEq

/-- The hold reasons produced by `_entry_block_reason`; they model the
formatted `hold(...)` strings of the source. -/
inductive BlockReason where
  | sigma (std : ℚ)
  | confirm (count : ℕ)
  | increasing (prev : Option ℚ) (cur : ℚ)
  deriving Repr, DecidableEq

/-- Per-cycle snapshot (`state` dict of `PairRuntime.step`); only the fields
the specification talks about are kept. -/
structure Snapshot where
  status : String
  phase : String
  sameA : Bool
  sameB : Bool
  pa : Option ℚ
  pb : Option ℚ
  spread : Option ℚ
  z : Option ℚ
  signal : String
  side : String
  wake : Bool
  deriving Repr, DecidableEq

/-- The freshly initialized `state` dict of lines 337-359. -/
def Snapshot.base : Snapshot :=
  ⟨"", "ready", false, false, none, none, none, none, "", "", false⟩

/-- `PairRuntime` (the `cfg` fields the step uses, the composed estimator and
engine, and the mutable bookkeeping fields). -/
structure PairRuntime where
  alpha : ℚ
  beta : ℚ
  z : RollingZScore
  engine : SignalEngine
  confirm_mode : EntryConfirmMode
  sigma_min : ℚ
  confirm_count : ℕ
  prev_abs_z : Option ℚ
  was_idle : Bool
  last_spread : Option ℚ
  wake_line : Bool
  last_state : Option Snapshot

/-- `PairRuntime._reset_entry_state` (lines 294-296). -/
def PairRuntime.reset_entry_state (rt : PairRuntime) : PairRuntime :=
  { rt with confirm_count := 0, prev_abs_z := none }

/-- `PairRuntime._entry_block_reason` (lines 298-326): returns the updated
runtime and `some reason` when the ENTER must be suppressed. -/
def PairRuntime.entry_block_reason (rt : PairRuntime) (z : ℚ) :
    PairRuntime × Option BlockReason :=
  let abs_z := |z|
  let std := rt.z.last_std.getD 0
  if 0 < rt.sigma_min ∧ std < rt.sigma_min then
    (rt, some (.sigma std))
  else
    match rt.confirm_mode with
    | .NONE => (rt, none)
    | .CONSECUTIVE =>
      let count := if rt.engine.enter_z ≤ abs_z then rt.confirm_count + 1 else 0
      let rt' := { rt with confirm_count := count }
      if 2 ≤ count then (rt', none) else (rt', some (.confirm count))
    | .INCREASING =>
      let prev := rt.prev_abs_z
      let allowed := match prev with
        | none => false
        | some p => decide (rt.engine.enter_z ≤ abs_z) && decide (p < abs_z)
      let rt' := { rt with prev_abs_z := some abs_z }
      if allowed then (rt', none) else (rt', some (.increasing prev abs_z))

/-- The liveness data `step` obtains for one leg from `get_tick_state`. -/
structure LegObs where
  price : Option ℚ
  age : Option ℚ
  same : Bool
  status : TickStatus
  deriving Repr, DecidableEq

/-- Outcome of the guarded tick fetch of lines 361-372: either the caught
exception of the `except` branch or the two legs' observations. -/
inductive FetchOutcome where
  | err (msg : String)
  | ticks (a b : LegObs)
  deriving Repr, DecidableEq

def Status.toStr : Status → String
  | .HOLD => "HOLD"
  | .ENTER => "ENTER"
  | .IN_POSITION => "IN_POSITION"
  | .EXIT => "EXIT"

def sideStr : Option Side → String
  | none => ""
  | some .longSpread => "LONG_SPREAD"
  | some .shortSpread => "SHORT_SPREAD"

/-- The extra payload of the 7-tuple return of `step`
(`status, side, z, spread, pnl_str`); `none` models the 2-tuple return. -/
def StepEvent := Option (Status × Option Side × ℚ × ℚ × Option ℚ)

/-- `PairRuntime.step` (lines 333-503).  `lg` stands for `math.log` and `sq`
for `math.sqrt`; the tick fetch outcome, the `mt5_service.last_fail()`
IPC flag consulted on the missing-price path, and the wall clock are inputs. -/
def PairRuntime.step (lg sq : ℚ → ℚ) (rt : PairRuntime) (fetch : FetchOutcome)
    (ipcFail : Bool) : PairRuntime × StepEvent :=
  let rt := { rt with wake_line := false }
  match fetch with
  | .err _ =>
    ({ rt with last_state := some { Snapshot.base with
        status := "mt5_err", signal := "MT5_ERR" } }, none)
  | .ticks la lb =>
    let snap0 := { Snapshot.base with
      pa := la.price, pb := lb.price, sameA := la.same, sameB := lb.same }
    match la.price, lb.price with
    | none, _ =>
      let st := if ipcFail then ("mt5_down", "MT5_DOWN") else ("no_tick", "NO_TICK")
      ({ rt with last_state := some { snap0 with status := st.1, signal := st.2 } }, none)
    | some _, none =>
      let st := if ipcFail then ("mt5_down", "MT5_DOWN") else ("no_tick", "NO_TICK")
      ({ rt with last_state := some { snap0 with status := st.1, signal := st.2 } }, none)
    | some pa, some pb =>
      let pair_stale := la.status = .STALE ∨ lb.status = .STALE
      let spread := lg pa - (rt.alpha + rt.beta * lg pb)
      let is_idle := la.same && lb.same
      let wake :=
        if ¬pair_stale then
          let woke_up := rt.was_idle && !is_idle
          let spread_changed : Bool := match rt.last_spread with
            | none => true
            | some prev => decide (1 / 10 ^ 9 < |spread - prev|)
          woke_up && spread_changed
        else false
      let rt1 := { rt with wake_line := wake, was_idle := is_idle,
                           last_spread := some spread }
      let snap1 := { snap0 with spread := some spread, wake := wake }
      if pair_stale then
        ({ rt1 with last_state := some { snap1 with
            status := "stale", signal := "STALE" } }, none)
      else if is_idle then
        ({ rt1 with last_state := some { snap1 with
            status := "idle", signal := "QUIET" } }, none)
      else
        let zres := RollingZScore.update sq rt1.z spread
        let rt2 := { rt1 with z := zres.1 }
        match zres.2 with
        | none =>
          ({ rt2 with last_state := some { snap1 with
              status := "active", phase := "warming", signal := "WARMING" } }, none)
        | some z =>
          let in_position := rt2.engine.pos.isSome
          let gated := if !in_position then rt2.entry_block_reason z else (rt2, none)
          let rt3 := gated.1
          match gated.2 with
          | some _ =>
            ({ rt3 with last_state := some { snap1 with
                status := "active", z := some z, signal := "HOLD" } }, none)
          | none =>
            let tick := rt3.engine.on_tick z spread
            let rt4 := { rt3 with engine := tick.1 }
            let status := tick.2.1
            let side := tick.2.2.1
            let pnl := tick.2.2.2
            let rt5 := if status = .ENTER ∨ status = .EXIT then
                rt4.reset_entry_state else rt4
            ({ rt5 with last_state := some { snap1 with
                status := "active", z := some z,
                signal := status.toStr, side := sideStr side } },
             some (status, side, z, spread, pnl))

/-- One pass of the scheduler loop of `main` (lines 660-708): every runtime is
stepped, in order, on its own fetch outcome. -/
def runCycle (lg sq : ℚ → ℚ) (rts : List PairRuntime)
    (ins : List (FetchOutcome × Bool)) : List (PairRuntime × StepEvent) :=
  (rts.zip ins).map fun p => PairRuntime.step lg sq p.1 p.2.1 p.2.2

/-! ## Calibration (`services/pair_calibration.py`)

`np.corrcoef(y, x)[0, 1]` divides the covariance by the product of the two
standard deviations; it is NaN exactly when either series has zero variance
(a `0/0`).  Since the standard deviations are irrational in general, a
non-NaN correlation is represented symbolically as `CorrVal.val cov prod`,
denoting the real number `cov / √prod` with `prod = var(y)·var(x) > 0`; the
literal float `0.0` of the source is `CorrVal.val 0 1`. -/

inductive CorrVal where
  | nan
  | val (cov prod : ℚ)
  deriving Repr, DecidableEq

/-- The real number `cov / √prod` lies in `[-1, 1]` iff `cov² ≤ prod`
(for `prod > 0`); `NaN` lies in no interval. -/
def CorrVal.inUnitRange : CorrVal → Prop
  | .nan => False
  | .val cov prod => cov ^ 2 ≤ prod

instance : DecidablePred CorrVal.inUnitRange := fun c =>
  match c with
  | .nan => isFalse fun h => h
  | .val cov prod => (inferInstance : Decidable (cov ^ 2 ≤ prod))

/-- `CalibResult` (pair_calibration.py lines 9-14). -/
structure CalibResult where
  alpha : ℚ
  beta : ℚ
  corr : CorrVal
  n : ℕ
  deriving Repr, DecidableEq

/-- Population covariance `np.mean((a - mean a) * (b - mean b))` of two
(equal-length) series, paired positionally. -/
def popCov (a b : List ℚ) : ℚ :=
  ((a.zip b).map (fun p => (p.1 - popMean a) * (p.2 - popMean b))).sum / a.length

/-- `np.corrcoef(y, x)[0, 1]`: NaN when either variance vanishes,
otherwise `cov / (std y · std x)`, kept as `val cov (var y · var x)`. -/
def corrcoef (y x : List ℚ) : CorrVal :=
  if popVar y = 0 ∨ popVar x = 0 then .nan
  else .val (popCov y x) (popVar y * popVar x)

/-- `ols_alpha_beta` (pair_calibration.py lines 17-31). -/
def ols_alpha_beta (y x : List ℚ) : CalibResult :=
  let x_mean := popMean x
  let y_mean := popMean y
  let cov := popCov x y
  let var := popVar x
  let beta := if 0 < var then cov / var else 1
  let alpha := y_mean - beta * x_mean
  let corr := if 2 < y.length then corrcoef y x else .val 0 1
  ⟨alpha, beta, corr, y.length⟩

/-- The two `RuntimeError`s `calibrate_pair_from_series` can raise. -/
inductive CalibError where
  | insufficientData (na nb : ℕ)
  | nonPositivePrice
  deriving Repr, DecidableEq

/-- `calibrate_pair_from_series` (pair_calibration.py lines 49-62); `lg`
stands for `math.log`. -/
def calibrate_pair_from_series (lg : ℚ → ℚ) (ca cb : List ℚ) :
    Except CalibError CalibResult :=
  let n := min ca.length cb.length
  if n < 50 then .error (.insufficientData ca.length cb.length)
  else
    let ca_trim := ca.drop (ca.length - n)
    let cb_trim := cb.drop (cb.length - n)
    if (ca_trim ++ cb_trim).any (fun v => decide (v ≤ 0)) then
      .error .nonPositivePrice
    else
      .ok (ols_alpha_beta (ca_trim.map lg) (cb_trim.map lg))

/-- The NaN sanitization the pair-universe builder applies to a calibration
result before using it (`build_pairs_from_universe.py` line 118:
`corr = 0.0 if math.isnan(result.corr) else result.corr`). -/
def sanitizeCorr : CorrVal → CorrVal
  | .nan => .val 0 1
  | c => c

/-- A small concrete runtime (window 5, warmup 3, `enter_z = 2`,
`exit_band = 0.2`, sigma floor disabled) used to evaluate the theorems on
concrete inputs. -/
def mkRuntime (mode : EntryConfirmMode) : PairRuntime :=
  { alpha := 0, beta := 1, z := RollingZScore.init 5 3,
    engine := ⟨2, 1 / 5, none⟩, confirm_mode := mode, sigma_min := 0,
    confirm_count := 0, prev_abs_z := none, was_idle := false,
    last_spread := none, wake_line := false, last_state := none }

def testRtC5 : PairRuntime := mkRuntime .CONSECUTIVE

def testRtC10 : PairRuntime := mkRuntime .INCREASING

/-! ## Helper lemmas about the rolling window -/

/-- The last `w` elements of a list. -/
def lastN (w : ℕ) (l : List ℚ) : List ℚ := l.drop (l.length - w)

theorem lastN_length (w : ℕ) (l : List ℚ) :
    (lastN w l).length = min w l.length := by
  simp [lastN]
  omega

theorem pushWindow_eq_lastN (w : ℕ) (vs : List ℚ) (x : ℚ) :
    pushWindow w vs x = lastN w (vs ++ [x]) := by
  unfold pushWindow lastN
  dsimp only
  split
  · rfl
  · next h =>
    rw [Nat.sub_eq_zero_of_le (not_lt.1 h), List.drop_zero]

theorem lastN_append (w : ℕ) (l zs : List ℚ) :
    lastN w (lastN w l ++ zs) = lastN w (l ++ zs) := by
  unfold lastN
  have hk : l.length - w ≤ l.length := Nat.sub_le _ _
  rw [← List.drop_append_of_le_length hk, List.drop_drop]
  congr 1
  simp
  omega

theorem update_fst (sq : ℚ → ℚ) (s : RollingZScore) (x : ℚ) :
    (s.update sq x).1.window = s.window ∧
    (s.update sq x).1.warmup = s.warmup ∧
    (s.update sq x).1.values = pushWindow s.window s.values x := by
  unfold RollingZScore.update
  dsimp only
  repeat' split
  all_goals exact ⟨rfl, rfl, rfl⟩

theorem update_stats (sq : ℚ → ℚ) (s : RollingZScore) (x : ℚ) :
    (s.update sq x).1.last_mean =
      (if (pushWindow s.window s.values x).length < min s.warmup s.window then none
       else some (popMean (pushWindow s.window s.values x))) ∧
    (s.update sq x).1.last_std =
      (if (pushWindow s.window s.values x).length < min s.warmup s.window then none
       else some (if 0 < popVar (pushWindow s.window s.values x) then
           sq (popVar (pushWindow s.window s.values x)) else 0)) := by
  unfold RollingZScore.update
  dsimp only
  repeat' split
  all_goals simp_all

theorem update_snd (sq : ℚ → ℚ) (s : RollingZScore) (x : ℚ) :
    (s.update sq x).2 =
      (if (pushWindow s.window s.values x).length < min s.warmup s.window then none
       else if (if 0 < popVar (pushWindow s.window s.values x) then
             sq (popVar (pushWindow s.window s.values x)) else 0) < EPS_STD then none
       else some ((x - popMean (pushWindow s.window s.values x)) /
         (if 0 < popVar (pushWindow s.window s.values x) then
             sq (popVar (pushWindow s.window s.values x)) else 0))) := by
  unfold RollingZScore.update
  dsimp only
  repeat' split
  all_goals simp_all

theorem feedAll_snoc (sq : ℚ → ℚ) (s : RollingZScore) (ys : List ℚ) (x : ℚ) :
    s.feedAll sq (ys ++ [x]) = ((s.feedAll sq ys).1).update sq x := by
  unfold RollingZScore.feedAll
  rw [List.foldl_append]
  rfl

theorem feedAll_fst_cons (sq : ℚ → ℚ) (s : RollingZScore) (x : ℚ) (xs : List ℚ) :
    (s.feedAll sq (x :: xs)).1 = ((s.update sq x).1.feedAll sq xs).1 := by
  unfold RollingZScore.feedAll
  rw [List.foldl_cons]
  cases xs <;> rfl

theorem feedAll_state (sq : ℚ → ℚ) (xs : List ℚ) :
    ∀ s : RollingZScore, s.values.length ≤ s.window →
      (s.feedAll sq xs).1.window = s.window ∧
      (s.feedAll sq xs).1.warmup = s.warmup ∧
      (s.feedAll sq xs).1.values = lastN s.window (s.values ++ xs) := by
  induction xs with
  | nil =>
    intro s hs
    refine ⟨rfl, rfl, ?_⟩
    simp [RollingZScore.feedAll, lastN, Nat.sub_eq_zero_of_le hs]
  | cons x xs ih =>
    intro s hs
    obtain ⟨hw, hwu, hv⟩ := update_fst sq s x
    have hlen : (s.update sq x).1.values.length ≤ (s.update sq x).1.window := by
      rw [hw, hv, pushWindow_eq_lastN, lastN_length]
      exact min_le_left _ _
    obtain ⟨ihw, ihwu, ihv⟩ := ih (s.update sq x).1 hlen
    rw [feedAll_fst_cons]
    refine ⟨ihw.trans hw, ihwu.trans hwu, ?_⟩
    rw [ihv, hw, hv, pushWindow_eq_lastN, lastN_append]
    simp

theorem popMean_replicate (n : ℕ) (c : ℚ) (hn : n ≠ 0) :
    popMean (List.replicate n c) = c := by
  unfold popMean
  rw [List.sum_replicate, List.length_replicate, nsmul_eq_mul,
    mul_div_cancel_left₀ _ (Nat.cast_ne_zero.mpr hn)]

theorem popVar_replicate (n : ℕ) (c : ℚ) : popVar (List.replicate n c) = 0 := by
  rcases Nat.eq_zero_or_pos n with h | h
  · subst h
    simp [popVar]
  · simp [popVar, List.map_replicate, popMean_replicate n c h.ne']

theorem lastN_replicate (w n : ℕ) (c : ℚ) :
    lastN w (List.replicate n c) = List.replicate (n - (n - w)) c := by
  simp [lastN, List.drop_replicate]

/-! ## Theorems -/

/-- C1: for every state of the signal state machine and every `(z, spread)`
input: from Flat, `z ≥ enter_z` opens a SHORT_SPREAD position and emits
ENTER, `z ≤ -enter_z` opens a LONG_SPREAD position and emits ENTER, and
otherwise it emits HOLD staying Flat; from Holding, `|z| ≤ exit_band`
closes the position and emits EXIT with spread P&L `exit_spread −
entry_spread` for LONG_SPREAD and `entry_spread − exit_spread` for
SHORT_SPREAD, otherwise it emits IN_POSITION leaving the position
unchanged.  With `enter_z = 2` and `exit_band = 0.2` the z sequence
`[2.5, 1.0, 0.1]` yields ENTER(SHORT_SPREAD), IN_POSITION, EXIT with
P&L `entry_spread − exit_spread`. -/
theorem C1_signal_state_machine (e : SignalEngine) (z spread : ℚ)
    (henter : 0 < e.enter_z) :
    (e.pos = none → e.enter_z ≤ z →
      e.on_tick z spread =
        ({ e with pos := some ⟨.shortSpread, z, spread⟩ }, .ENTER, some .shortSpread, none)) ∧
    (e.pos = none → z ≤ -e.enter_z →
      e.on_tick z spread =
        ({ e with pos := some ⟨.longSpread, z, spread⟩ }, .ENTER, some .longSpread, none)) ∧
    (e.pos = none → ¬ e.enter_z ≤ z → ¬ z ≤ -e.enter_z →
      e.on_tick z spread = (e, .HOLD, none, none)) ∧
    (∀ p, e.pos = some p → |z| ≤ e.exit_band →
      e.on_tick z spread =
        ({ e with pos := none }, .EXIT, some p.side,
          some (match p.side with
            | .longSpread => spread - p.entry_spread
            | .shortSpread => p.entry_spread - spread))) ∧
    (∀ p, e.pos = some p → ¬ |z| ≤ e.exit_band →
      e.on_tick z spread = (e, .IN_POSITION, some p.side, none)) ∧
    (∀ s1 s2 s3 : ℚ,
      let e0 : SignalEngine := ⟨2, 1 / 5, none⟩
      let r1 := e0.on_tick (5 / 2) s1
      let r2 := r1.1.on_tick 1 s2
      let r3 := r2.1.on_tick (1 / 10) s3
      r1.2.1 = .ENTER ∧ r1.2.2.1 = some .shortSpread ∧
      r2.2.1 = .IN_POSITION ∧
      r3.2.1 = .EXIT ∧ r3.2.2.2 = some (s1 - s3)) := by
  refine ⟨?_, ?_, ?_, ?_, ?_, ?_⟩
  · intro h hz
    simp [SignalEngine.on_tick, h, hz]
  · intro h hz
    have hz' : ¬ e.enter_z ≤ z := by
      intro hle
      have : e.enter_z ≤ -e.enter_z := hle.trans hz
      linarith
    simp [SignalEngine.on_tick, h, hz, hz']
  · intro h h1 h2
    simp [SignalEngine.on_tick, h, h1, h2]
  · intro p h hb
    cases p with
    | mk side ez es =>
      cases side <;> simp [SignalEngine.on_tick, h, hb]
  · intro p h hb
    simp [SignalEngine.on_tick, h, hb]
  · intro s1 s2 s3
    norm_num [SignalEngine.on_tick, abs_le]

/-- Witness for C1: the Flat → ENTER(SHORT_SPREAD) transition at
`enter_z = 2`, `z = 3`. -/
theorem C1_signal_state_machine_witness :
    (⟨2, 1 / 5, none⟩ : SignalEngine).on_tick 3 7 =
      (⟨2, 1 / 5, some ⟨.shortSpread, 3, 7⟩⟩, .ENTER, some .shortSpread, none) :=
  (C1_signal_state_machine ⟨2, 1 / 5, none⟩ 3 7 (by norm_num)).1 rfl (by norm_num)

/-- C2: for a `RollingZScore` with window `W` and `warmup ≤ W`, feeding
inputs (last input `x`): the stored values are exactly the last `W`
inputs (a full window evicts its oldest value on append), the update
returns not-ready while fewer than `min(warmup, W)` values are stored,
and otherwise returns not-ready when the standard deviation
(`sq` of the population variance of exactly the stored values, `0` for a
vanishing variance) is below `1e-9` and `(x − mean)/std` otherwise; a
constant input sequence of any length yields not-ready (no division is
ever performed on it). -/
theorem C2_rolling_estimator (W warmup : ℕ) (sq : ℚ → ℚ)
    (hW : 0 < W) (hwu : warmup ≤ W) :
    (∀ (ys : List ℚ) (x : ℚ),
      ((RollingZScore.init W warmup).feedAll sq (ys ++ [x])).1.values =
          lastN W (ys ++ [x]) ∧
      ((lastN W (ys ++ [x])).length < min warmup W →
        ((RollingZScore.init W warmup).feedAll sq (ys ++ [x])).2 = none) ∧
      (min warmup W ≤ (lastN W (ys ++ [x])).length →
        ((RollingZScore.init W warmup).feedAll sq (ys ++ [x])).2 =
          if (if 0 < popVar (lastN W (ys ++ [x])) then
                sq (popVar (lastN W (ys ++ [x]))) else 0) < EPS_STD then none
          else some ((x - popMean (lastN W (ys ++ [x]))) /
            (if 0 < popVar (lastN W (ys ++ [x])) then
                sq (popVar (lastN W (ys ++ [x]))) else 0)))) ∧
    (∀ (s : RollingZScore) (x : ℚ), s.window = W → s.values.length = W →
      (s.update sq x).1.values = s.values.tail ++ [x]) ∧
    (∀ (c : ℚ) (n : ℕ),
      ((RollingZScore.init W warmup).feedAll sq (List.replicate n c)).2 = none) := by
  have hinit : (RollingZScore.init W warmup).values.length ≤
      (RollingZScore.init W warmup).window := by
    simp [RollingZScore.init]
  have hmain : ∀ (ys : List ℚ) (x : ℚ),
      ((RollingZScore.init W warmup).feedAll sq (ys ++ [x])) =
        ((RollingZScore.init W warmup).feedAll sq ys).1.update sq x ∧
      pushWindow (((RollingZScore.init W warmup).feedAll sq ys).1).window
          (((RollingZScore.init W warmup).feedAll sq ys).1).values x =
        lastN W (ys ++ [x]) ∧
      (((RollingZScore.init W warmup).feedAll sq ys).1).window = W ∧
      (((RollingZScore.init W warmup).feedAll sq ys).1).warmup = warmup := by
    intro ys x
    obtain ⟨hSw, hSwu, hSv⟩ := feedAll_state sq ys (RollingZScore.init W warmup) hinit
    have hSw' : ((RollingZScore.init W warmup).feedAll sq ys).1.window = W := hSw
    have hSwu' : ((RollingZScore.init W warmup).feedAll sq ys).1.warmup = warmup := hSwu
    have hSv' : ((RollingZScore.init W warmup).feedAll sq ys).1.values = lastN W ys := hSv
    refine ⟨feedAll_snoc sq _ ys x, ?_, hSw', hSwu'⟩
    rw [hSw', hSv', pushWindow_eq_lastN]
    simpa using lastN_append W ys [x]
  refine ⟨?_, ?_, ?_⟩
  · intro ys x
    obtain ⟨hsnoc, hpush, hSw, hSwu⟩ := hmain ys x
    refine ⟨?_, ?_, ?_⟩
    · rw [hsnoc, (update_fst sq _ x).2.2, hpush]
    · intro hlt
      rw [hsnoc, update_snd, hpush, hSw, hSwu, if_pos hlt]
    · intro hge
      rw [hsnoc, update_snd, hpush, hSw, hSwu, if_neg (not_lt.2 hge)]
  · intro s x hw hlen
    rw [(update_fst sq s x).2.2]
    unfold pushWindow
    dsimp only
    rw [List.length_append]
    have hcond : s.window < s.values.length + [x].length := by
      simp [hlen, hw]
    rw [if_pos hcond]
    have h1 : s.values.length + [x].length - s.window = 1 := by
      simp [hlen, hw]
    rw [h1, List.drop_append_of_le_length (by omega), List.drop_one]
  · intro c n
    cases n with
    | zero => rfl
    | succ m =>
      rw [List.replicate_succ']
      obtain ⟨hsnoc, hpush, hSw, hSwu⟩ := hmain (List.replicate m c) c
      rw [hsnoc, update_snd, hpush, hSw, hSwu]
      rw [← List.replicate_succ', lastN_replicate, popVar_replicate]
      split
      · rfl
      · rw [if_neg (lt_irrefl 0)]
        rw [if_pos (by norm_num [EPS_STD])]

/-- Witness for C2: window 5, warmup 5, inputs `[0,0,0,0,10]` (population
variance 16, `sqrt` = 4) produce the z-score `(10 − 2)/4 = 2`. -/
theorem C2_rolling_estimator_witness :
    ((RollingZScore.init 5 5).feedAll (fun _ => 4) ([0, 0, 0, 0] ++ [10])).2 =
      some 2 := by
  have h := ((C2_rolling_estimator 5 5 (fun _ => 4) (by decide)
    (by decide)).1 [0, 0, 0, 0] 10).2.2 (by decide)
  rw [h]
  norm_num [lastN, popVar, popMean, EPS_STD]

theorem entry_block_sigma (rt : PairRuntime) (z : ℚ) :
    (rt.entry_block_reason z).2 = some (.sigma (rt.z.last_std.getD 0)) ↔
      0 < rt.sigma_min ∧ rt.z.last_std.getD 0 < rt.sigma_min := by
  unfold PairRuntime.entry_block_reason
  dsimp only
  repeat' split
  all_goals simp_all

/-- C9: after feeding any input sequence of length at least `warmup`
(warmup ≤ window), the estimator's `last_mean` and `last_std` equal the
population statistics of the currently stored values — also on calls that
return not-ready because of a degenerate variance, where they are retained
rather than cleared; and the sigma-floor entry gate blocks with exactly
that retained `last_std` value. -/
theorem C9_rolling_stats_retained (W warmup : ℕ) (sq : ℚ → ℚ)
    (ys : List ℚ) (x : ℚ) (hW : 0 < W) (hwu : warmup ≤ W)
    (hlen : warmup ≤ (ys ++ [x]).length) :
    ((RollingZScore.init W warmup).feedAll sq (ys ++ [x])).1.last_mean =
      some (popMean (lastN W (ys ++ [x]))) ∧
    ((RollingZScore.init W warmup).feedAll sq (ys ++ [x])).1.last_std =
      some (if 0 < popVar (lastN W (ys ++ [x])) then
        sq (popVar (lastN W (ys ++ [x]))) else 0) ∧
    (popVar (lastN W (ys ++ [x])) = 0 →
      ((RollingZScore.init W warmup).feedAll sq (ys ++ [x])).2 = none) ∧
    (∀ (rt : PairRuntime) (z : ℚ),
      rt.z = ((RollingZScore.init W warmup).feedAll sq (ys ++ [x])).1 →
      ((rt.entry_block_reason z).2 = some (.sigma
          ((((RollingZScore.init W warmup).feedAll sq (ys ++ [x])).1.last_std).getD 0)) ↔
        0 < rt.sigma_min ∧
          ((((RollingZScore.init W warmup).feedAll sq (ys ++ [x])).1.last_std).getD 0)
            < rt.sigma_min)) := by
  have hinit : (RollingZScore.init W warmup).values.length ≤
      (RollingZScore.init W warmup).window := by
    simp [RollingZScore.init]
  obtain ⟨hSw, hSwu, hSv⟩ := feedAll_state sq ys (RollingZScore.init W warmup) hinit
  have hSw' : ((RollingZScore.init W warmup).feedAll sq ys).1.window = W := hSw
  have hSwu' : ((RollingZScore.init W warmup).feedAll sq ys).1.warmup = warmup := hSwu
  have hSv' : ((RollingZScore.init W warmup).feedAll sq ys).1.values = lastN W ys := hSv
  have hsnoc := feedAll_snoc sq (RollingZScore.init W warmup) ys x
  have hpush : pushWindow (((RollingZScore.init W warmup).feedAll sq ys).1).window
      (((RollingZScore.init W warmup).feedAll sq ys).1).values x =
        lastN W (ys ++ [x]) := by
    rw [hSw', hSv', pushWindow_eq_lastN]
    simpa using lastN_append W ys [x]
  have hready : ¬ (lastN W (ys ++ [x])).length < min warmup W := by
    rw [lastN_length]
    omega
  refine ⟨?_, ?_, ?_, ?_⟩
  · rw [hsnoc, (update_stats sq _ x).1, hpush, hSw', hSwu', if_neg hready]
  · rw [hsnoc, (update_stats sq _ x).2, hpush, hSw', hSwu', if_neg hready]
  · intro hvar
    rw [hsnoc, update_snd, hpush, hSw', hSwu', if_neg hready, hvar]
    rw [if_neg (lt_irrefl 0), if_pos (by norm_num [EPS_STD])]
  · intro rt z hz
    have h := entry_block_sigma rt z
    rw [hz] at h
    exact h

/-- Witness for C9: window 3, warmup 2, constant inputs `[5,5,5]` — the
call returns not-ready (flat spread) yet `last_mean = 5` and
`last_std = 0` are retained. -/
theorem C9_rolling_stats_retained_witness :
    ((RollingZScore.init 3 2).feedAll (fun _ => 0) ([5, 5] ++ [5])).1.last_mean =
        some 5 ∧
    ((RollingZScore.init 3 2).feedAll (fun _ => 0) ([5, 5] ++ [5])).1.last_std =
        some 0 ∧
    ((RollingZScore.init 3 2).feedAll (fun _ => 0) ([5, 5] ++ [5])).2 = none := by
  have h := C9_rolling_stats_retained 3 2 (fun _ => 0) [5, 5] 5
    (by decide) (by decide) (by decide)
  have hvar : popVar (lastN 3 ([5, 5] ++ [(5 : ℚ)])) = 0 := by
    norm_num [lastN, popVar, popMean]
  refine ⟨?_, ?_, h.2.2.1 hvar⟩
  · rw [h.1]
    norm_num [lastN, popMean]
  · rw [h.2.1, hvar]
    norm_num

theorem step_event_reset (lg sq : ℚ → ℚ) (rt : PairRuntime)
    (fetch : FetchOutcome) (ipc : Bool)
    (ev : Status × Option Side × ℚ × ℚ × Option ℚ)
    (hsome : (rt.step lg sq fetch ipc).2 = some ev)
    (hst : ev.1 = .ENTER ∨ ev.1 = .EXIT) :
    (rt.step lg sq fetch ipc).1.confirm_count = 0 ∧
    (rt.step lg sq fetch ipc).1.prev_abs_z = none := by
  rcases hstep : rt.step lg sq fetch ipc with ⟨rt2, ev2⟩
  rw [hstep] at hsome
  dsimp only at hsome ⊢
  unfold PairRuntime.step at hstep
  dsimp only at hstep
  repeat' split at hstep
  all_goals
    rw [Prod.mk.injEq] at hstep
    obtain ⟨h1, h2⟩ := hstep
    subst h1
    subst h2
    cases hsome <;> simp_all [PairRuntime.reset_entry_state]

theorem ebr_consecutive_eq (rt : PairRuntime) (z : ℚ)
    (hmode : rt.confirm_mode = .CONSECUTIVE) (hsig : ¬ 0 < rt.sigma_min) :
    rt.entry_block_reason z =
      ({ rt with confirm_count :=
          if rt.engine.enter_z ≤ |z| then rt.confirm_count + 1 else 0 },
       if 2 ≤ (if rt.engine.enter_z ≤ |z| then rt.confirm_count + 1 else 0) then
         none
       else some (.confirm
          (if rt.engine.enter_z ≤ |z| then rt.confirm_count + 1 else 0))) := by
  unfold PairRuntime.entry_block_reason
  dsimp only
  rw [if_neg (by simp [hsig]), hmode]
  repeat' split
  all_goals try simp_all
  all_goals omega

/-- C5: with the `ConsecutiveConfirm` entry gate (and the sigma floor
disabled, its default), a ready evaluation increments the confirmation
counter when `|z| ≥ enter_z` and resets it to 0 otherwise; the ENTER is
allowed exactly when the incremented counter has reached 2 — so from a
fresh counter two consecutive qualifying evaluations are needed and the
ENTER fires on the second — and any emitted ENTER or EXIT resets the
counter and the stored previous `|z|` completely. -/
theorem C5_consecutive_confirm (rt : PairRuntime) (z : ℚ)
    (hmode : rt.confirm_mode = .CONSECUTIVE) (hsig : rt.sigma_min ≤ 0) :
    ((rt.entry_block_reason z).1.confirm_count =
      if rt.engine.enter_z ≤ |z| then rt.confirm_count + 1 else 0) ∧
    ((rt.entry_block_reason z).2 = none ↔
      2 ≤ (if rt.engine.enter_z ≤ |z| then rt.confirm_count + 1 else 0)) ∧
    (rt.confirm_count = 0 → (rt.entry_block_reason z).2 ≠ none) ∧
    (∀ z2 : ℚ, rt.confirm_count = 0 →
      (((rt.entry_block_reason z).1.entry_block_reason z2).2 = none ↔
        (rt.engine.enter_z ≤ |z| ∧ rt.engine.enter_z ≤ |z2|))) ∧
    (∀ (lg sq : ℚ → ℚ) (rt0 : PairRuntime) (fetch : FetchOutcome) (ipc : Bool)
        (ev : Status × Option Side × ℚ × ℚ × Option ℚ),
      (rt0.step lg sq fetch ipc).2 = some ev →
      ev.1 = .ENTER ∨ ev.1 = .EXIT →
        (rt0.step lg sq fetch ipc).1.confirm_count = 0 ∧
        (rt0.step lg sq fetch ipc).1.prev_abs_z = none) := by
  have hsig' : ¬ 0 < rt.sigma_min := not_lt.2 hsig
  have h1 := ebr_consecutive_eq rt z hmode hsig'
  refine ⟨?_, ?_, ?_, ?_, ?_⟩
  · rw [h1]
  · rw [h1]
    by_cases h : 2 ≤ (if rt.engine.enter_z ≤ |z| then rt.confirm_count + 1 else 0)
    · simp [if_pos h, h]
    · simp [if_neg h, h]
  · intro hcc
    rw [h1, hcc]
    by_cases hq : rt.engine.enter_z ≤ |z|
    · rw [if_pos hq, if_neg (by norm_num)]
      exact Option.some_ne_none _
    · rw [if_neg hq, if_neg (by norm_num)]
      exact Option.some_ne_none _
  · intro z2 hcc
    have hfst : (rt.entry_block_reason z).1 =
        { rt with confirm_count :=
            if rt.engine.enter_z ≤ |z| then rt.confirm_count + 1 else 0 } := by
      rw [h1]
    have h2 := ebr_consecutive_eq
      ({ rt with confirm_count :=
          if rt.engine.enter_z ≤ |z| then rt.confirm_count + 1 else 0 }) z2
      hmode hsig'
    rw [hfst, h2]
    by_cases hq1 : rt.engine.enter_z ≤ |z| <;>
      by_cases hq2 : rt.engine.enter_z ≤ |z2| <;>
      simp [hq1, hq2, hcc]
  · exact fun lg sq rt0 fetch ipc ev h h' => step_event_reset lg sq rt0 fetch ipc ev h h'

/-- Witness for C5: with `enter_z = 2` and a fresh counter, the first
qualifying evaluation (`z = 3`) is blocked; a second consecutive
qualifying evaluation (`z = 5/2`) is allowed. -/
theorem C5_consecutive_confirm_witness :
    ((testRtC5.entry_block_reason 3).2 ≠ none) ∧
    (((testRtC5.entry_block_reason 3).1.entry_block_reason (5 / 2)).2 = none) := by
  have h := C5_consecutive_confirm testRtC5 3 rfl (le_refl 0)
  refine ⟨h.2.2.1 rfl, ?_⟩
  rw [(h.2.2.2.1 (5 / 2) rfl)]
  constructor
  · show (2 : ℚ) ≤ |3|
    rw [abs_of_nonneg (by norm_num)]
    norm_num
  · show (2 : ℚ) ≤ |5 / 2|
    rw [abs_of_nonneg (by norm_num)]
    norm_num

theorem ebr_increasing_none (rt : PairRuntime) (z : ℚ)
    (hmode : rt.confirm_mode = .INCREASING) (hsig : ¬ 0 < rt.sigma_min)
    (hprev : rt.prev_abs_z = none) :
    rt.entry_block_reason z =
      ({ rt with prev_abs_z := some |z| }, some (.increasing none |z|)) := by
  unfold PairRuntime.entry_block_reason
  dsimp only
  rw [if_neg (by simp [hsig]), hmode, hprev]
  rfl

theorem ebr_increasing_some (rt : PairRuntime) (z p : ℚ)
    (hmode : rt.confirm_mode = .INCREASING) (hsig : ¬ 0 < rt.sigma_min)
    (hprev : rt.prev_abs_z = some p) :
    rt.entry_block_reason z =
      ({ rt with prev_abs_z := some |z| },
       if rt.engine.enter_z ≤ |z| ∧ p < |z| then none
       else some (.increasing (some p) |z|)) := by
  unfold PairRuntime.entry_block_reason
  dsimp only
  rw [if_neg (by simp [hsig]), hmode, hprev]
  dsimp only
  by_cases h : rt.engine.enter_z ≤ |z| ∧ p < |z|
  · rw [if_pos h, if_pos (by simp [h.1, h.2])]
  · rw [if_neg h, if_neg (by simpa using h)]

/-- C10: with the `IncreasingConfirm` entry gate (sigma floor disabled),
the first ready evaluation after startup or after any ENTER/EXIT reset is
always suppressed because no previous `|z|` is recorded; every evaluation
stores the current `|z|` as the new previous value; an ENTER is allowed
exactly when a previous `|z|` is recorded, `|z| ≥ enter_z` and `|z|`
strictly exceeds it — so at least two ready evaluations are needed, the
second meeting the threshold and strictly exceeding the first's `|z|`. -/
theorem C10_increasing_confirm (rt : PairRuntime) (z : ℚ)
    (hmode : rt.confirm_mode = .INCREASING) (hsig : rt.sigma_min ≤ 0) :
    ((rt.entry_block_reason z).1.prev_abs_z = some |z|) ∧
    (rt.prev_abs_z = none →
      (rt.entry_block_reason z).2 = some (.increasing none |z|)) ∧
    ((rt.entry_block_reason z).2 = none ↔
      ∃ p, rt.prev_abs_z = some p ∧ rt.engine.enter_z ≤ |z| ∧ p < |z|) ∧
    (∀ z2 : ℚ, rt.prev_abs_z = none →
      (((rt.entry_block_reason z).1.entry_block_reason z2).2 = none ↔
        (rt.engine.enter_z ≤ |z2| ∧ |z| < |z2|))) := by
  have hsig' : ¬ 0 < rt.sigma_min := not_lt.2 hsig
  refine ⟨?_, ?_, ?_, ?_⟩
  · cases hprev : rt.prev_abs_z with
    | none => rw [ebr_increasing_none rt z hmode hsig' hprev]
    | some p =>
      rw [ebr_increasing_some rt z p hmode hsig' hprev]
  · intro hprev
    rw [ebr_increasing_none rt z hmode hsig' hprev]
  · cases hprev : rt.prev_abs_z with
    | none =>
      rw [ebr_increasing_none rt z hmode hsig' hprev]
      simp
    | some p =>
      rw [ebr_increasing_some rt z p hmode hsig' hprev]
      split
      · next h => simp [h]
      · next h => simp [h]
  · intro z2 hprev
    rw [ebr_increasing_none rt z hmode hsig' hprev]
    rw [ebr_increasing_some ({ rt with prev_abs_z := some |z| }) z2 |z| hmode hsig' rfl]
    split
    · next h => simp [h]
    · next h => simp [h]

/-- Witness for C10: with `enter_z = 2` and no recorded previous `|z|`,
the first qualifying evaluation (`z = 3`) is suppressed; a second one
with a strictly larger deviation (`z = 4`) is allowed. -/
theorem C10_increasing_confirm_witness :
    (testRtC10.entry_block_reason 3).2 ≠ none ∧
    ((testRtC10.entry_block_reason 3).1.entry_block_reason 4).2 = none := by
  have h := C10_increasing_confirm testRtC10 3 rfl (le_refl 0)
  constructor
  · rw [h.2.1 rfl]
    exact Option.some_ne_none _
  · rw [h.2.2.2 4 rfl]
    constructor
    · show (2 : ℚ) ≤ |4|
      rw [abs_of_nonneg (by norm_num)]
      norm_num
    · show |(3 : ℚ)| < |4|
      rw [abs_of_nonneg (by norm_num : (0:ℚ) ≤ 3),
        abs_of_nonneg (by norm_num : (0:ℚ) ≤ 4)]
      norm_num

/-- C6: the liveness classifier returns `NO_TICK` (touching no state) when
no observation is available; an observation with a new tick identity
immediately resets the staleness clock — the recorded last-change time
becomes `now`, so the leg is `OK` for any nonnegative `stale_seconds`;
an observation with an unchanged identity leaves the caches untouched and
is classified `STALE` exactly when the elapsed time since the identity
last changed exceeds `stale_seconds` — independent of how often the leg
was polled in between. -/
theorem C6_liveness_classifier (c : TickCache) (symbol : String)
    (tick : Option Tick) (now stale : ℚ) :
    (tick = none →
      get_tick_state c symbol tick now stale = (c, (none, none, false, .NO_TICK))) ∧
    (∀ t, tick = some t → c.lastMsc symbol ≠ some t.time_msc →
      (get_tick_state c symbol tick now stale).1.lastSeen symbol = some now ∧
      (get_tick_state c symbol tick now stale).1.lastMsc symbol = some t.time_msc ∧
      (0 ≤ stale → (get_tick_state c symbol tick now stale).2.2.2.2 = .OK)) ∧
    (∀ t, tick = some t → c.lastMsc symbol = some t.time_msc →
      (get_tick_state c symbol tick now stale).1 = c ∧
      ((get_tick_state c symbol tick now stale).2.2.2.2 = .STALE ↔
        stale < now - ((c.lastSeen symbol).getD now))) := by
  refine ⟨?_, ?_, ?_⟩
  · intro h
    subst h
    rfl
  · intro t ht hne
    subst ht
    unfold get_tick_state
    dsimp only
    rw [if_pos (Or.inr hne)]
    refine ⟨by simp, by simp, ?_⟩
    intro hstale
    simp [sub_self, not_lt.2 hstale]
  · intro t ht heq
    subst ht
    unfold get_tick_state
    dsimp only
    have hcond : ¬ (c.lastMsc symbol = none ∨ c.lastMsc symbol ≠ some t.time_msc) := by
      simp [heq]
    rw [if_neg hcond]
    refine ⟨rfl, ?_⟩
    split
    · next h => simp [h]
    · next h => simp [h]

/-- Witness for C6: on an empty cache a fresh tick (identity 100) at time
50 resets the staleness clock and is `OK` for `stale_seconds = 300`. -/
theorem C6_liveness_classifier_witness :
    (get_tick_state TickCache.empty "PETR4" (some ⟨10, 9, 11, 100⟩) 50 300).1.lastSeen
        "PETR4" = some 50 ∧
    (get_tick_state TickCache.empty "PETR4" (some ⟨10, 9, 11, 100⟩) 50 300).2.2.2.2 =
        .OK := by
  have h := (C6_liveness_classifier TickCache.empty "PETR4"
    (some ⟨10, 9, 11, 100⟩) 50 300).2.1 ⟨10, 9, 11, 100⟩ rfl
    (by simp [TickCache.empty])
  exact ⟨h.1, h.2.2 (by norm_num)⟩

/-- C4: a step in which either leg has `NO_TICK` (which in
`get_tick_state` always comes with a missing price — the well-formedness
hypotheses), either leg is `STALE`, or the pair is idle (both legs report
`same_tick`) stops without emitting an event and without mutating the
rolling estimator, the signal engine, or the entry gate's confirmation
state. -/
theorem C4_skip_paths_no_mutation (lg sq : ℚ → ℚ) (rt : PairRuntime)
    (la lb : LegObs) (ipc : Bool)
    (hwfa : la.status = .NO_TICK → la.price = none)
    (hwfb : lb.status = .NO_TICK → lb.price = none)
    (hcond : la.status = .NO_TICK ∨ lb.status = .NO_TICK ∨
      la.status = .STALE ∨ lb.status = .STALE ∨ (la.same ∧ lb.same)) :
    (rt.step lg sq (.ticks la lb) ipc).1.z = rt.z ∧
    (rt.step lg sq (.ticks la lb) ipc).1.engine = rt.engine ∧
    (rt.step lg sq (.ticks la lb) ipc).1.confirm_count = rt.confirm_count ∧
    (rt.step lg sq (.ticks la lb) ipc).1.prev_abs_z = rt.prev_abs_z ∧
    (rt.step lg sq (.ticks la lb) ipc).2 = none := by
  unfold PairRuntime.step
  dsimp only
  repeat' split
  all_goals simp_all

/-- Witness for C4: a leg with `NO_TICK` (and no price) stops the step
and leaves estimator, engine and gate state untouched. -/
theorem C4_skip_paths_no_mutation_witness :
    ((mkRuntime .NONE).step id id
        (.ticks ⟨none, none, false, .NO_TICK⟩ ⟨some 10, some 0, false, .OK⟩)
        false).1.z = (mkRuntime .NONE).z ∧
    ((mkRuntime .NONE).step id id
        (.ticks ⟨none, none, false, .NO_TICK⟩ ⟨some 10, some 0, false, .OK⟩)
        false).2 = none := by
  have h := C4_skip_paths_no_mutation id id (mkRuntime .NONE)
    ⟨none, none, false, .NO_TICK⟩ ⟨some 10, some 0, false, .OK⟩ false
    (fun _ => rfl) (by intro h; cases h) (Or.inl rfl)
  exact ⟨h.1, h.2.2.2.2⟩

/-- The caught-exception path of `step` (lines 361-372): the runtime keeps
all of its estimator/engine/gate state and records a degraded snapshot. -/
theorem step_err (lg sq : ℚ → ℚ) (rt : PairRuntime) (msg : String) (ipc : Bool) :
    rt.step lg sq (.err msg) ipc =
      ({ rt with wake_line := false, last_state := some { Snapshot.base with
          status := "mt5_err", signal := "MT5_ERR" } }, none) := rfl

/-- C3: in a scheduler cycle each pair is evaluated on its own runtime and
input only — so the i-th result is a function of the i-th pair alone and a
failure of one pair can not reach another pair's state —, the cycle output
covers every pair (same length as the input list), and a pair whose tick
fetch raised is turned into a degraded `mt5_err`/`MT5_ERR` snapshot with
its estimator, engine and gate state untouched and no event emitted. -/
theorem C3_cycle_failure_isolation (lg sq : ℚ → ℚ) (rts : List PairRuntime)
    (ins : List (FetchOutcome × Bool)) (hlen : ins.length = rts.length) :
    ((runCycle lg sq rts ins).length = rts.length) ∧
    (∀ j rtj inj, rts.get? j = some rtj → ins.get? j = some inj →
      (runCycle lg sq rts ins).get? j = some (rtj.step lg sq inj.1 inj.2)) ∧
    (∀ j rtj msg ipc, rts.get? j = some rtj →
      ins.get? j = some (.err msg, ipc) →
      (runCycle lg sq rts ins).get? j =
        some ({ rtj with
                  wake_line := false,
                  last_state := some { Snapshot.base with
                    status := "mt5_err", signal := "MT5_ERR" } },
              none)) := by
  have hmap : ∀ j rtj inj, rts.get? j = some rtj → ins.get? j = some inj →
      (runCycle lg sq rts ins).get? j = some (rtj.step lg sq inj.1 inj.2) := by
    intro j rtj inj h1 h2
    unfold runCycle
    rw [List.get?_map]
    rw [(List.get?_zip_eq_some rts ins (rtj, inj) j).2 ⟨h1, h2⟩]
    rfl
  refine ⟨?_, hmap, ?_⟩
  · unfold runCycle
    rw [List.length_map, List.length_zip, hlen, min_self]
  · intro j rtj msg ipc h1 h2
    rw [hmap j rtj (.err msg, ipc) h1 h2, step_err]

/-- Witness for C3: a two-pair cycle where the first pair's fetch raised —
the first pair degrades to `mt5_err` with untouched state, the second pair
is still evaluated. -/
theorem C3_cycle_failure_isolation_witness :
    (runCycle id id [mkRuntime .NONE, mkRuntime .CONSECUTIVE]
        [(.err "boom", false),
         (.ticks ⟨none, none, false, .NO_TICK⟩ ⟨none, none, false, .NO_TICK⟩, false)]).get? 0 =
      some ({ mkRuntime .NONE with
                wake_line := false,
                last_state := some { Snapshot.base with
                  status := "mt5_err", signal := "MT5_ERR" } },
            none) ∧
    (runCycle id id [mkRuntime .NONE, mkRuntime .CONSECUTIVE]
        [(.err "boom", false),
         (.ticks ⟨none, none, false, .NO_TICK⟩ ⟨none, none, false, .NO_TICK⟩, false)]).length = 2 := by
  have h := C3_cycle_failure_isolation id id
    [mkRuntime .NONE, mkRuntime .CONSECUTIVE]
    [(.err "boom", false),
     (.ticks ⟨none, none, false, .NO_TICK⟩ ⟨none, none, false, .NO_TICK⟩, false)]
    rfl
  exact ⟨h.2.2 0 (mkRuntime .NONE) "boom" false rfl rfl, h.1⟩

/-- C7: calibrating on an aligned sample count (length of the shorter
series) below 50 always fails with the insufficient-data error and never
returns any result; with at least 50 aligned samples of positive prices a
`CalibResult` is returned. -/
theorem C7_calibration_min_samples (lg : ℚ → ℚ) (ca cb : List ℚ) :
    (min ca.length cb.length < 50 →
      calibrate_pair_from_series lg ca cb =
        .error (.insufficientData ca.length cb.length)) ∧
    (50 ≤ min ca.length cb.length →
      (∀ v ∈ ca, 0 < v) → (∀ v ∈ cb, 0 < v) →
      ∃ r : CalibResult, calibrate_pair_from_series lg ca cb = .ok r) := by
  constructor
  · intro h
    unfold calibrate_pair_from_series
    rw [if_pos h]
  · intro h hca hcb
    unfold calibrate_pair_from_series
    rw [if_neg (not_lt.2 h)]
    dsimp only
    have hneg : ¬ ((ca.drop (ca.length - min ca.length cb.length) ++
        cb.drop (cb.length - min ca.length cb.length)).any
          fun v => decide (v ≤ 0)) = true := by
      simp only [List.any_eq_true, decide_eq_true_eq, not_exists, not_and]
      intro v hv
      rcases List.mem_append.1 hv with hv | hv
      · exact not_le.2 (hca v (List.drop_subset _ _ hv))
      · exact not_le.2 (hcb v (List.drop_subset _ _ hv))
    rw [if_neg hneg]
    exact ⟨_, rfl⟩

/-- Witness for C7: one-point series fail with the insufficient-data
error; two constant 50-point positive series calibrate successfully. -/
theorem C7_calibration_min_samples_witness :
    calibrate_pair_from_series id [1] [1] = .error (.insufficientData 1 1) ∧
    ∃ r : CalibResult, calibrate_pair_from_series id
      (List.replicate 50 1) (List.replicate 50 1) = .ok r := by
  constructor
  · exact (C7_calibration_min_samples id [1] [1]).1 (by decide)
  · refine (C7_calibration_min_samples id _ _).2 (by simp) ?_ ?_ <;>
      (intro v hv
       rw [List.eq_of_mem_replicate hv]
       norm_num)

/-- Counterexample for C8: on two constant series of three samples (any
zero-variance input with more than two points), the Calibrator returns a
`CalibResult` whose correlation is NaN — it is not sanitized to 0.0 and
does not lie in `[-1, 1]`. -/
theorem C8_corr_nan_counterexample :
    (ols_alpha_beta (List.replicate 3 (1 : ℚ)) (List.replicate 3 (1 : ℚ))).corr =
      CorrVal.nan ∧
    ¬ (ols_alpha_beta (List.replicate 3 (1 : ℚ))
        (List.replicate 3 (1 : ℚ))).corr.inUnitRange := by
  have h : (ols_alpha_beta (List.replicate 3 (1 : ℚ))
      (List.replicate 3 (1 : ℚ))).corr = CorrVal.nan := by
    have hv : popVar (List.replicate 3 (1 : ℚ)) = 0 := popVar_replicate 3 1
    show (if 2 < (List.replicate 3 (1 : ℚ)).length then
        corrcoef (List.replicate 3 (1 : ℚ)) (List.replicate 3 (1 : ℚ))
      else .val 0 1) = CorrVal.nan
    rw [if_pos (by simp)]
    unfold corrcoef
    rw [if_pos (Or.inl hv)]
  refine ⟨h, ?_⟩
  rw [h]
  exact fun hx => hx

/-- Cauchy–Schwarz for lists: the squared sum of pointwise products is at
most the product of the sums of squares (the zip truncates to the shorter
list, the right side only grows with the extra terms). -/
theorem list_cauchy_schwarz (a : List ℚ) :
    ∀ b : List ℚ,
      (((a.zip b).map fun p => p.1 * p.2).sum) ^ 2 ≤
        ((a.map fun v => v ^ 2).sum) * ((b.map fun v => v ^ 2).sum) := by
  induction a with
  | nil => intro b; simp
  | cons u us ih =>
    intro b
    cases b with
    | nil => simp
    | cons w ws =>
      have h := ih ws
      have hA : 0 ≤ (us.map fun v => v ^ 2).sum :=
        List.sum_nonneg (by
          intro q hq
          obtain ⟨v, _, rfl⟩ := List.mem_map.1 hq
          positivity)
      have hB : 0 ≤ (ws.map fun v => v ^ 2).sum :=
        List.sum_nonneg (by
          intro q hq
          obtain ⟨v, _, rfl⟩ := List.mem_map.1 hq
          positivity)
      simp only [List.zip_cons_cons, List.map_cons, List.sum_cons]
      set S := ((us.zip ws).map fun p => p.1 * p.2).sum with hSdef
      set A := (us.map fun v => v ^ 2).sum with hAdef
      set B := (ws.map fun v => v ^ 2).sum with hBdef
      rcases hA.eq_or_lt with hA0 | hApos
      · have h1 : S ^ 2 ≤ 0 := by
          calc S ^ 2 ≤ A * B := h
          _ = 0 := by rw [← hA0, zero_mul]
        have h2 : S = 0 :=
          pow_eq_zero_iff two_ne_zero |>.mp (le_antisymm h1 (sq_nonneg S))
        rw [h2, ← hA0]
        nlinarith [hB, sq_nonneg u, sq_nonneg (u * w)]
      · nlinarith [h, hB, hApos, sq_nonneg (A * w - u * S),
          mul_nonneg (sq_nonneg u) (sub_nonneg.2 h),
          mul_nonneg hA (sub_nonneg.2 h)]

theorem popCov_sq_le (y x : List ℚ) (hlen : y.length = x.length) :
    popCov y x ^ 2 ≤ popVar y * popVar x := by
  have hzip : ((y.map fun v => v - popMean y).zip
      (x.map fun v => v - popMean x)).map (fun p => p.1 * p.2) =
        (y.zip x).map fun p => (p.1 - popMean y) * (p.2 - popMean x) := by
    rw [List.zip_map, List.map_map]
    rfl
  have hsq : ∀ (l : List ℚ) (m : ℚ),
      (l.map fun v => v - m).map (fun v => v ^ 2) =
        l.map fun v => (v - m) ^ 2 := by
    intro l m
    rw [List.map_map]
    rfl
  have hcs := list_cauchy_schwarz (y.map fun v => v - popMean y)
    (x.map fun v => v - popMean x)
  rw [hzip, hsq, hsq] at hcs
  unfold popCov popVar
  rcases Nat.eq_zero_or_pos y.length with h0 | hpos
  · have hy : y = [] := List.length_eq_zero.1 h0
    subst hy
    simp
  · have hn : (0 : ℚ) < (y.length : ℚ) := by exact_mod_cast hpos
    rw [div_pow, ← hlen, div_mul_div_comm, ← sq]
    apply div_le_div_of_nonneg_right hcs ?_ |>.trans_eq ?_
    · positivity
    · rfl

/-- C8 amended: the Calibrator's correlation is NaN exactly when the
sample count exceeds 2 and either log-price series has zero variance — it
is NOT sanitized inside the Calibrator; every non-NaN correlation it
returns lies in `[-1, 1]` (the represented value `cov/√(varY·varX)`
satisfies `cov² ≤ varY·varX`), and after the pair-universe builder's NaN
sanitization (`corr = 0.0 if isnan else corr`) the correlation always
lies in `[-1, 1]`. -/
theorem C8_corr_sanitized_amended (y x : List ℚ) (hlen : y.length = x.length) :
    ((ols_alpha_beta y x).corr = .nan ↔
      2 < y.length ∧ (popVar y = 0 ∨ popVar x = 0)) ∧
    ((ols_alpha_beta y x).corr ≠ .nan → (ols_alpha_beta y x).corr.inUnitRange) ∧
    (sanitizeCorr (ols_alpha_beta y x).corr).inUnitRange := by
  have hcorr : (ols_alpha_beta y x).corr =
      if 2 < y.length then corrcoef y x else .val 0 1 := rfl
  have hc1 : (ols_alpha_beta y x).corr = .nan ↔
      2 < y.length ∧ (popVar y = 0 ∨ popVar x = 0) := by
    rw [hcorr]
    split
    · next h =>
      unfold corrcoef
      split
      · next h2 => simp [h, h2]
      · next h2 => simp [h, h2]
    · next h => simp [h]
  have hc2 : (ols_alpha_beta y x).corr ≠ .nan →
      (ols_alpha_beta y x).corr.inUnitRange := by
    intro hne
    rw [hcorr] at hne ⊢
    by_cases h : 2 < y.length
    · rw [if_pos h] at hne ⊢
      unfold corrcoef at hne ⊢
      by_cases h2 : popVar y = 0 ∨ popVar x = 0
      · exact absurd (by rw [if_pos h2]) hne
      · rw [if_neg h2]
        exact popCov_sq_le y x hlen
    · rw [if_neg h]
      show (0 : ℚ) ^ 2 ≤ 1
      norm_num
  refine ⟨hc1, hc2, ?_⟩
  cases hn : (ols_alpha_beta y x).corr with
  | nan =>
    show (0 : ℚ) ^ 2 ≤ 1
    norm_num
  | val cov prod =>
    have := hc2 (by rw [hn]; exact fun hx => CorrVal.noConfusion hx)
    rw [hn] at this
    exact this

/-- Witness for C8's amended claim: two 2-point series — the correlation
is the literal 0.0 (not NaN) and the sanitized correlation is in range. -/
theorem C8_corr_sanitized_amended_witness :
    (sanitizeCorr (ols_alpha_beta [1, 3] [1, 3]).corr).inUnitRange ∧
    (ols_alpha_beta [1, 3] [1, 3]).corr ≠ .nan := by
  have h := C8_corr_sanitized_amended [1, 3] [1, 3] rfl
  refine ⟨h.2.2, ?_⟩
  intro hn
  have h2 := (h.1.mp hn).1
  simp at h2

end LongshrtMT
